import Mathlib

/-!
Verification development for the check-in scheduler of this repository
(`scheduler_service.py`).  Instants are modelled as seconds since a fixed
epoch, all in the single fixed timezone `America/Chicago`; daylight-saving
transitions are not modelled (the design notes flag them as unspecified).
Within one engine call the wall clock is modelled as a single instant
`now`, matching the intent of the repeated `datetime.now(CST_TZ)` reads.
-/

namespace Mycheckin

/-- Seconds in one day. -/
def daySecs : Nat := 86400

/-- A parsed time of day (`datetime.time` as produced by `strptime`:
hour 0..23, minute 0..59, seconds always zero for the accepted formats). -/
structure Tod where
  hour : Nat
  minute : Nat
deriving Repr, DecidableEq

/-- Numeric value of an ASCII digit character. -/
def digitVal (c : Char) : Nat := c.toNat - 48

/-- Python regex `\s`: space, tab, newline, carriage return, vertical tab,
form feed. -/
def isPyWs (c : Char) : Bool :=
  c = ' ' || c = '\t' || c = '\n' || c = '\r' || c = '\x0b' || c = '\x0c'

/-- Python `str.strip()` on a character list: drop leading and trailing
whitespace. -/
def pyStrip (cs : List Char) : List Char :=
  ((cs.dropWhile isPyWs).reverse.dropWhile isPyWs).reverse

/-- Candidates for `strptime`'s `%I` directive, regex
`(1[0-2]|0[1-9]|[1-9])`, tried in alternation order (with backtracking). -/
def hourCands : List Char → List (Nat × List Char)
  | [] => []
  | c :: rest =>
    (match c, rest with
     | '1', d :: rest2 =>
       if '0' ≤ d ∧ d ≤ '2' then [(10 + digitVal d, rest2)] else []
     | '0', d :: rest2 =>
       if '1' ≤ d ∧ d ≤ '9' then [(digitVal d, rest2)] else []
     | _, _ => []) ++
    (if '1' ≤ c ∧ c ≤ '9' then [(digitVal c, rest)] else [])

/-- Candidates for `strptime`'s `%M` directive, regex `([0-5]\d|\d)`,
in alternation order. -/
def minuteCands : List Char → List (Nat × List Char)
  | [] => []
  | [a] => if a.isDigit then [(digitVal a, [])] else []
  | a :: b :: rest =>
    (if '0' ≤ a ∧ a ≤ '5' ∧ b.isDigit then [(10 * digitVal a + digitVal b, rest)] else []) ++
    (if a.isDigit then [(digitVal a, b :: rest)] else [])

/-- `strptime`'s `%p` directive at end of input (input already
upper-cased): `some true` means PM.  `strptime` requires the whole string
to be consumed. -/
def ampmEnd : List Char → Option Bool
  | ['A', 'M'] => some false
  | ['P', 'M'] => some true
  | _ => none

/-- `strptime` 12-hour to 24-hour conversion: 12AM is hour 0, 12PM is
hour 12, otherwise PM adds 12. -/
def applyAmPm (h : Nat) (pm : Bool) : Nat :=
  if pm then (if h = 12 then 12 else h + 12)
  else (if h = 12 then 0 else h)

/-- Format `%I:%M%p`. -/
def fmtColon (cs : List Char) : Option Tod :=
  (hourCands cs).findSome? fun hr =>
    match hr.2 with
    | ':' :: r2 =>
      (minuteCands r2).findSome? fun mr =>
        (ampmEnd mr.2).map fun pm => ⟨applyAmPm hr.1 pm, mr.1⟩
    | _ => none

/-- Format `%I:%M %p`: `strptime` turns the literal space into `\s+`, so
at least one whitespace character must separate minutes and the suffix.
(After the caller removed every space this can only be satisfied by other
whitespace characters surviving inside the text.) -/
def fmtColonWs (cs : List Char) : Option Tod :=
  (hourCands cs).findSome? fun hr =>
    match hr.2 with
    | ':' :: r2 =>
      (minuteCands r2).findSome? fun mr =>
        match mr.2 with
        | c :: r3 =>
          if isPyWs c then
            (ampmEnd (r3.dropWhile isPyWs)).map fun pm => ⟨applyAmPm hr.1 pm, mr.1⟩
          else none
        | [] => none
    | _ => none

/-- Format `%I%p`. -/
def fmtBare (cs : List Char) : Option Tod :=
  (hourCands cs).findSome? fun hr =>
    (ampmEnd hr.2).map fun pm => ⟨applyAmPm hr.1 pm, 0⟩

/-- `SchedulerService._parse_time_h12`: strip, upper-case, remove every
space, then try the formats `%I:%M%p`, `%I:%M %p`, `%I%p` in order.
Returns `none` where the Python code raises `ValueError`. -/
def parse_time_h12 (s : String) : Option Tod :=
  let cs := ((pyStrip s.toList).map Char.toUpper).filter (fun c => c ≠ ' ')
  ((fmtColon cs).orElse fun _ => (fmtColonWs cs).orElse fun _ => fmtBare cs)

/-- `SchedulerService._mk_today_time`: anchor a time of day to the current
calendar date (midnight of the day containing `now`). -/
def mk_today_time (now : Nat) (t : Tod) : Nat :=
  (now - now % daySecs) + 3600 * t.hour + 60 * t.minute

/-- The window computation inlined in `schedule_user` (lines 164-174):
anchor both times to today, wrap the end by 24h when it does not exceed
the start, and in restore mode shift both by 24h when the wrapped end is
already at or before `now`. -/
def computeWindow (now : Nat) (start_t end_t : Tod) (restore_mode : Bool) : Nat × Nat :=
  let start_dt := mk_today_time now start_t
  let end_dt0 := mk_today_time now end_t
  let end_dt := if end_dt0 ≤ start_dt then end_dt0 + daySecs else end_dt0
  if restore_mode ∧ end_dt ≤ now then (start_dt + daySecs, end_dt + daySecs)
  else (start_dt, end_dt)

/-- Zero-padded two-digit rendering, as `strftime` does for `%I` and `%M`. -/
def two (n : Nat) : String := (if n < 10 then "0" else "") ++ toString n

/-- `strftime("%I:%M %p")` on an instant. -/
def fmtIMp (dt : Nat) : String :=
  let sod := dt % daySecs
  let h := sod / 3600
  let m := sod % 3600 / 60
  two ((h + 11) % 12 + 1) ++ ":" ++ two m ++ " " ++ (if h < 12 then "AM" else "PM")

/-- The callbacks `schedule_user` registers with the job queue, as data.
`doCheckin` stands for the closure calling the external
`perform_check_in(username, password)` and relaying its message;
the network action itself is outside the engine. -/
inductive Callback where
  | markStart (chat_id_str username : String)
  | doCheckin (chat_id_str username password : String)
  | markEnd (chat_id_str human_start human_end : String)
deriving Repr, DecidableEq

/-- A registration made against the job queue: `jq.run_once` or
`jq.run_repeating` together with its arguments. -/
inductive JobSpec where
  | runOnce (whenAt : Nat) (cb : Callback) (jobName : String)
  | runRepeating (interval first last : Nat) (cb : Callback) (jobName : String)
deriving Repr, DecidableEq

/-- One job-queue timer: its handle id, what was registered, and whether
`schedule_removal` has been called on it. -/
structure TimerRec where
  tid : Nat
  spec : JobSpec
  cancelled : Bool
deriving Repr, DecidableEq

/-- `ActiveSet` from the source: one registry entry. `jobs` stores the
handle ids of the PTB Job objects. -/
structure ActiveSet where
  chat_id : String
  username : String
  password : String
  window_start : String
  window_end : String
  end_dt : Nat
  jobs : List Nat
deriving Repr, DecidableEq

/-- Engine state: the `active` registry (`Dict[str, ActiveSet]` as an
association list with at most one pair per key), the timers ever
registered with the job queue, and the next fresh handle id. -/
structure SchedState where
  active : List (String × ActiveSet)
  timers : List TimerRec
  nextId : Nat
deriving Repr, DecidableEq

/-- Externally visible actions, in program order: Telegram/terminal
notifications (`_send`), plain `print` diagnostics, registry-entry
removals (`dict.pop`, with whether a value was present), timer
cancellations (`Job.schedule_removal`) and timer registrations. -/
inductive Ev where
  | notify (chat_id text : String)
  | logLine (text : String)
  | popEntry (chat_id : String) (found : Bool)
  | cancelTimer (tid : Nat)
  | registerTimer (tid : Nat)
deriving Repr, DecidableEq

/-- Remove every pair with the given key (a `dict` holds at most one). -/
def eraseKey : List (String × ActiveSet) → String → List (String × ActiveSet)
  | [], _ => []
  | p :: t, k => if p.1 = k then eraseKey t k else p :: eraseKey t k

/-- How many pairs of the registry carry the given key. -/
def countKey : List (String × ActiveSet) → String → Nat
  | [], _ => 0
  | p :: t, k => (if p.1 = k then 1 else 0) + countKey t k

/-- Mark the timers with the given handle ids as cancelled
(`schedule_removal`; failures in the source are swallowed). -/
def cancelIn (timers : List TimerRec) (ids : List Nat) : List TimerRec :=
  timers.map fun t => if t.tid ∈ ids then { t with cancelled := true } else t

/-- Register one job with the queue, returning the fresh handle id and
the corresponding trace event. -/
def registerJob (st : SchedState) (spec : JobSpec) : SchedState × Nat × Ev :=
  ({ st with timers := st.timers ++ [⟨st.nextId, spec, false⟩], nextId := st.nextId + 1 },
   st.nextId, Ev.registerTimer st.nextId)

/-- Every timer record carrying this handle id is cancelled. -/
def timerCancelled (st : SchedState) (j : Nat) : Prop :=
  ∀ t ∈ st.timers, t.tid = j → t.cancelled = true

/-- How many user notifications a trace contains. -/
def notifyCount (evs : List Ev) : Nat :=
  (evs.filter (fun ev => match ev with | Ev.notify _ _ => true | _ => false)).length

/-- `SchedulerService.cancel_jobs`: pop the registry entry first, then
best-effort-cancel each stored handle, then (unless silent) notify. -/
def cancel_jobs (st : SchedState) (chat_id_str : String) (silent : Bool) :
    SchedState × Bool × List Ev :=
  match st.active.lookup chat_id_str with
  | none =>
      (st, false,
       Ev.popEntry chat_id_str false ::
         (if silent then [] else [Ev.notify chat_id_str "ℹ️ No active check-ins to cancel."]))
  | some aset =>
      ({ st with active := eraseKey st.active chat_id_str,
                 timers := cancelIn st.timers aset.jobs },
       true,
       Ev.popEntry chat_id_str true ::
         (aset.jobs.map Ev.cancelTimer ++
          (if silent then [] else [Ev.notify chat_id_str "🛑 Cancelled any existing schedules."])))

/-- `SchedulerService._prune_if_expired`: drop the entry (defensively
cancelling its lingering jobs) once `now` is past `end_dt` plus the
one-second grace. -/
def prune_if_expired (st : SchedState) (now : Nat) (chat_id : String) :
    SchedState × List Ev :=
  match st.active.lookup chat_id with
  | none => (st, [])
  | some aset =>
      if now > aset.end_dt + 1 then
        ({ st with active := eraseKey st.active chat_id,
                   timers := cancelIn st.timers aset.jobs },
         aset.jobs.map Ev.cancelTimer ++ [Ev.popEntry chat_id true])
      else (st, [])

/-- `SchedulerService.has_active_job`: auto-prune, then report whether a
live entry with a nonempty job list remains. -/
def has_active_job (st : SchedState) (now : Nat) (chat_id : String) :
    SchedState × Bool × List Ev :=
  let pr := prune_if_expired st now chat_id
  (pr.1,
   (match pr.1.active.lookup chat_id with
    | some aset => decide (aset.jobs.length > 0)
    | none => false),
   pr.2)

/-- `SchedulerService.get_active_job_info`: read-only window query
(the source returns a dict holding the pair under key window). -/
def get_active_job_info (st : SchedState) (chat_id : String) : Option (String × String) :=
  match st.active.lookup chat_id with
  | none => none
  | some aset => some (aset.window_start, aset.window_end)

/-- The error text `schedule_user` sends on a parse failure
(`Invalid time format: ...`; the quotation marks Python's `repr` would
put around the offending text are elided). -/
def invalidTimeText (s : String) : String :=
  "❌ Invalid time format: " ++ s ++ " (e.g., 11:30PM)"

/-- Lines 151-154 of `schedule_user`: prune anything stale, then silently
cancel anything still active for this chat. -/
def replace_stage (st : SchedState) (now : Nat) (chat_id_str : String) :
    SchedState × List Ev :=
  let pr := prune_if_expired st now chat_id_str
  let ha := has_active_job pr.1 now chat_id_str
  if ha.2.1 then
    let cj := cancel_jobs ha.1 chat_id_str true
    (cj.1, pr.2 ++ ha.2.2 ++ cj.2.2)
  else (ha.1, pr.2 ++ ha.2.2)

/-- Lines 176-242 of `schedule_user`, with the window already computed:
register the start marker (or notify immediately when already inside the
window), register the 30-minute repeating check-in, then either register
the end marker and store the entry, or — when the end already passed —
pop any entry, notify and return. -/
def schedule_core (st : SchedState) (now : Nat) (chat_id_str username password : String)
    (start_dt end_dt : Nat) : SchedState × List Ev :=
  let human_start := fmtIMp start_dt
  let human_end := fmtIMp end_dt
  let ev0 := Ev.notify chat_id_str
    ("🕓 Scheduling " ++ username ++ " from " ++ human_start ++ " → " ++ human_end ++ " (Chicago).")
  let stage1 :=
    if start_dt ≥ now then
      let rj := registerJob st
        (JobSpec.runOnce start_dt (Callback.markStart chat_id_str username) ("start_" ++ chat_id_str))
      (rj.1, [rj.2.2], [rj.2.1])
    else
      (st, [Ev.notify chat_id_str ("🚀 Start window for " ++ username)], ([] : List Nat))
  let r2 := registerJob stage1.1
    (JobSpec.runRepeating 1800 start_dt end_dt
      (Callback.doCheckin chat_id_str username password) ("repeat_" ++ chat_id_str))
  let st2 := r2.1
  let jobs2 := stage1.2.2 ++ [r2.2.1]
  if end_dt ≥ now then
    let r3 := registerJob st2
      (JobSpec.runOnce (end_dt + 1) (Callback.markEnd chat_id_str human_start human_end)
        ("end_" ++ chat_id_str))
    let aset : ActiveSet :=
      ⟨chat_id_str, username, password, human_start, human_end, end_dt, jobs2 ++ [r3.2.1]⟩
    ({ r3.1 with active := (chat_id_str, aset) :: eraseKey r3.1.active chat_id_str },
     ev0 :: stage1.2.1 ++ [r2.2.2, r3.2.2])
  else
    ({ st2 with active := eraseKey st2.active chat_id_str },
     ev0 :: stage1.2.1 ++
       [r2.2.2,
        Ev.popEntry chat_id_str ((st2.active.lookup chat_id_str).isSome),
        Ev.notify chat_id_str
          ("ℹ️ The schedule window " ++ human_start ++ "–" ++ human_end ++ " has already ended.")])

/-- `SchedulerService.schedule_user` (the engine is assumed wired, i.e.
`set_app` was called — the unwired case raises and is outside this
model): stringify the chat id, prune/silently-cancel, parse both time
texts (notifying the error text and stopping on failure), then run the
window computation and registration stage. -/
def schedule_user (st : SchedState) (now : Nat) (chat_id : Int)
    (username password start_time end_time : String) (restore_mode : Bool) :
    SchedState × List Ev :=
  let chat_id_str := toString chat_id
  let rs := replace_stage st now chat_id_str
  match parse_time_h12 start_time with
  | none => (rs.1, rs.2 ++ [Ev.notify chat_id_str (invalidTimeText start_time)])
  | some start_t =>
    match parse_time_h12 end_time with
    | none => (rs.1, rs.2 ++ [Ev.notify chat_id_str (invalidTimeText end_time)])
    | some end_t =>
      let w := computeWindow now start_t end_t restore_mode
      let co := schedule_core rs.1 now chat_id_str username password w.1 w.2
      (co.1, rs.2 ++ co.2)

/-- Effect of a callback when the job queue fires it.  `markEnd` pops the
registry entry and notifies; `markStart` notifies (its leading
`_stamp()` wall-clock prefix is presentation and elided); `doCheckin`
invokes the external check-in and relays its message — the relayed text
depends on the network result and is not modelled, only the notification
act is. -/
def run_callback (st : SchedState) (cb : Callback) : SchedState × List Ev :=
  match cb with
  | Callback.markStart chat u =>
      (st, [Ev.notify chat ("🚀 Start window for " ++ u)])
  | Callback.doCheckin chat u _ =>
      (st, [Ev.notify chat ("checkin-result " ++ u)])
  | Callback.markEnd chat hs he =>
      ({ st with active := eraseKey st.active chat },
       [Ev.popEntry chat ((st.active.lookup chat).isSome),
        Ev.notify chat
          ("🌅 All check-ins are complete for " ++ hs ++ "–" ++ he ++ ".\n✅ Have a great day ahead!")])

/-- Python `int(text)` as used on persisted chat-id keys: strip
whitespace, optional sign, then decimal digits (digit-group underscores,
accepted by Python, are not modelled — no claim depends on them). -/
def pyInt (s : String) : Option Int :=
  let digitsVal : List Char → Option Nat := fun cs =>
    if cs ≠ [] ∧ cs.all Char.isDigit then
      some (cs.foldl (fun a c => 10 * a + digitVal c) 0)
    else none
  match pyStrip s.toList with
  | '-' :: ds => (digitsVal ds).map (fun n => -(n : Int))
  | '+' :: ds => (digitsVal ds).map (fun n => (n : Int))
  | ds => (digitsVal ds).map (fun n => (n : Int))

/-- A persisted per-user record: a JSON-style string dictionary. -/
def RestoreRec : Type := List (String × String)

/-- Does a persisted record pass both `restore_from_dict` checks (parsable
chat-id key and all four required fields present)? -/
def restoreEligible (eu : String × RestoreRec) : Bool :=
  (pyInt eu.1).isSome &&
    ((eu.2.lookup "username").isSome && ((eu.2.lookup "password").isSome &&
      ((eu.2.lookup "start_time").isSome && (eu.2.lookup "end_time").isSome)))

/-- `SchedulerService.restore_from_dict`: for each persisted record in
order, skip (logging) keys that fail `int(...)`, skip records missing any
of the four required fields, and otherwise schedule with
`restore_mode=True`, counting that record as restored (the Python `for`
loop threading the engine state is rendered as structural recursion). -/
def restore_from_dict (st : SchedState) (now : Nat) :
    List (String × RestoreRec) → SchedState × Nat × List Ev
  | [] => (st, 0, [])
  | (cid_str, u) :: rest =>
    match pyInt cid_str with
    | none =>
        let r := restore_from_dict st now rest
        (r.1, r.2.1, Ev.logLine ("[Restore Error] Invalid chat_id: " ++ cid_str) :: r.2.2)
    | some cid_int =>
        if (u.lookup "username").isSome ∧ (u.lookup "password").isSome ∧
           (u.lookup "start_time").isSome ∧ (u.lookup "end_time").isSome then
          let su := schedule_user st now cid_int
            ((u.lookup "username").getD "") ((u.lookup "password").getD "")
            ((u.lookup "start_time").getD "") ((u.lookup "end_time").getD "") true
          let r := restore_from_dict su.1 now rest
          (r.1, r.2.1 + 1,
           su.2 ++ (Ev.logLine ("♻️ Restored schedule for chat_id=" ++ cid_str) :: r.2.2))
        else restore_from_dict st now rest

/-- Modelled from the spec: the firing instants of
`TimerSource.RunRepeating(interval, firstInstant, lastInstant, callback)`
(the job queue is an external collaborator specified only at its
boundary): first occurrence at `first`, then every `interval` seconds,
with no occurrence past `last`. -/
def firingTimes (interval first last : Nat) : List Nat :=
  if interval = 0 ∨ last < first then []
  else (List.range ((last - first) / interval + 1)).map (fun k => first + interval * k)

/-- The same-day anchored end instant after the overnight-wraparound step
(lines 166-168 of `schedule_user`), before any restore-mode shift. -/
def wrappedEnd (now : Nat) (start_t end_t : Tod) : Nat :=
  if mk_today_time now end_t ≤ mk_today_time now start_t
  then mk_today_time now end_t + daySecs else mk_today_time now end_t

/-! ### Concrete example data for witnesses and counterexamples -/

/-- Freshly constructed engine (empty registry, no timers). -/
def emptyState : SchedState := ⟨[], [], 0⟩

/-- Midnight starting 2024-03-01 (19783 days after the epoch). -/
def day0 : Nat := 19783 * daySecs

/-- A registered start-marker timer held by the example live entry. -/
def exampleTimer : TimerRec :=
  ⟨0, JobSpec.runOnce (day0 + 9 * 3600) (Callback.markStart "42" "u") "start_42", false⟩

/-- A state holding one live entry for chat 42 whose window ends at 13:00. -/
def exampleLive : SchedState :=
  ⟨[("42", ⟨"42", "u", "p", "09:00 AM", "01:00 PM", day0 + 13 * 3600, [0]⟩)],
   [exampleTimer], 1⟩

/-- A complete persisted record with parsable window texts. -/
def exampleRec : RestoreRec :=
  [("username", "u"), ("password", "p"), ("start_time", "9:00AM"), ("end_time", "1:00PM")]

/-- A complete persisted record whose window texts do not parse. -/
def exampleBadRec : RestoreRec :=
  [("username", "u"), ("password", "p"), ("start_time", "bad"), ("end_time", "bad")]

/-! ### Association-list and timer-table lemmas -/

theorem lookup_eraseKey_self (l : List (String × ActiveSet)) (k : String) :
    (eraseKey l k).lookup k = none := by
  induction l with
  | nil => rfl
  | cons p t ih =>
    by_cases h : p.1 = k
    · simpa [eraseKey, h] using ih
    · simpa [eraseKey, h, List.lookup_cons, beq_iff_eq, Ne.symm h] using ih

theorem lookup_eraseKey_ne (l : List (String × ActiveSet)) (k k' : String) (h : k' ≠ k) :
    (eraseKey l k).lookup k' = l.lookup k' := by
  induction l with
  | nil => rfl
  | cons p t ih =>
    obtain ⟨pk, pa⟩ := p
    by_cases hp : pk = k
    · subst hp
      have hb : (k' == pk) = false := beq_eq_false_iff_ne.2 h
      simp [eraseKey, List.lookup_cons, hb, ih]
    · simp [eraseKey, hp, List.lookup_cons, beq_iff_eq, ih]

theorem countKey_eraseKey_self (l : List (String × ActiveSet)) (k : String) :
    countKey (eraseKey l k) k = 0 := by
  induction l with
  | nil => rfl
  | cons p t ih =>
    by_cases h : p.1 = k <;> simp [eraseKey, countKey, h, ih]

theorem countKey_eraseKey_le (l : List (String × ActiveSet)) (k k' : String) :
    countKey (eraseKey l k) k' ≤ countKey l k' := by
  induction l with
  | nil => exact Nat.le_refl _
  | cons p t ih =>
    by_cases h : p.1 = k <;> simp [eraseKey, countKey, h] <;> omega

theorem countKey_cons (p : String × ActiveSet) (l : List (String × ActiveSet)) (k : String) :
    countKey (p :: l) k = (if p.1 = k then 1 else 0) + countKey l k := rfl

theorem lookup_none_of_countKey_zero (l : List (String × ActiveSet)) (k : String)
    (h : countKey l k = 0) : l.lookup k = none := by
  induction l with
  | nil => rfl
  | cons p t ih =>
    by_cases hp : p.1 = k
    · simp [countKey, hp] at h
    · simp [countKey, hp] at h
      simpa [List.lookup_cons, beq_iff_eq, Ne.symm hp] using ih h

theorem cancelIn_tids (ts : List TimerRec) (ids : List Nat) :
    (cancelIn ts ids).map TimerRec.tid = ts.map TimerRec.tid := by
  induction ts with
  | nil => rfl
  | cons t rest ih =>
    simp only [cancelIn, List.map_cons] at ih ⊢
    by_cases h : t.tid ∈ ids <;> simp [h, ih]

theorem cancelIn_cancels (ts : List TimerRec) (ids : List Nat) (j : Nat) (hj : j ∈ ids) :
    ∀ t ∈ cancelIn ts ids, t.tid = j → t.cancelled = true := by
  intro t ht htid
  simp only [cancelIn, List.mem_map] at ht
  obtain ⟨t0, _, rfl⟩ := ht
  by_cases h : t0.tid ∈ ids
  · rw [if_pos h]
  · rw [if_neg h] at htid ⊢
    exact absurd (htid ▸ hj) h

theorem cancelIn_mono (ts : List TimerRec) (ids : List Nat) (j : Nat)
    (h : ∀ t ∈ ts, t.tid = j → t.cancelled = true) :
    ∀ t ∈ cancelIn ts ids, t.tid = j → t.cancelled = true := by
  intro t ht htid
  simp only [cancelIn, List.mem_map] at ht
  obtain ⟨t0, ht0, rfl⟩ := ht
  by_cases hm : t0.tid ∈ ids
  · rw [if_pos hm]
  · rw [if_neg hm] at htid ⊢
    exact h t0 ht0 htid

theorem append_keeps_cancelled (ts : List TimerRec) (r : TimerRec) (j : Nat)
    (h : ∀ t ∈ ts, t.tid = j → t.cancelled = true) (hr : r.tid ≠ j) :
    ∀ t ∈ ts ++ [r], t.tid = j → t.cancelled = true := by
  intro t ht htid
  rcases List.mem_append.1 ht with h1 | h2
  · exact h t h1 htid
  · simp at h2
    subst h2
    exact absurd htid hr

theorem lookup_eraseKey_some (l : List (String × ActiveSet)) (k k' : String) (a : ActiveSet)
    (h : (eraseKey l k).lookup k' = some a) : l.lookup k' = some a := by
  by_cases hk : k' = k
  · subst hk
    rw [lookup_eraseKey_self] at h
    exact absurd h (by simp)
  · rwa [lookup_eraseKey_ne _ _ _ hk] at h

/-- Structural well-formedness of reachable engine states: at most one
registry pair per key, every stored entry has a nonempty job list whose
handle ids were already allocated, and every timer handle id was already
allocated. -/
def WF (st : SchedState) : Prop :=
  (∀ k, countKey st.active k ≤ 1) ∧
  (∀ k a, st.active.lookup k = some a → a.jobs ≠ [] ∧ ∀ j ∈ a.jobs, j < st.nextId) ∧
  (∀ t ∈ st.timers, t.tid < st.nextId)

/-! ### Characterizations of the small engine steps -/

theorem prune_none (st : SchedState) (now : Nat) (k : String)
    (hl : st.active.lookup k = none) : prune_if_expired st now k = (st, []) := by
  simp [prune_if_expired, hl]

theorem prune_live (st : SchedState) (now : Nat) (k : String) (a : ActiveSet)
    (hl : st.active.lookup k = some a) (h : ¬ now > a.end_dt + 1) :
    prune_if_expired st now k = (st, []) := by
  simp [prune_if_expired, hl, h]

theorem prune_expired (st : SchedState) (now : Nat) (k : String) (a : ActiveSet)
    (hl : st.active.lookup k = some a) (h : now > a.end_dt + 1) :
    prune_if_expired st now k =
      ({ st with active := eraseKey st.active k, timers := cancelIn st.timers a.jobs },
       a.jobs.map Ev.cancelTimer ++ [Ev.popEntry k true]) := by
  simp [prune_if_expired, hl, h]

theorem cancel_none (st : SchedState) (k : String) (silent : Bool)
    (hl : st.active.lookup k = none) :
    cancel_jobs st k silent =
      (st, false,
       Ev.popEntry k false ::
         (if silent then [] else [Ev.notify k "ℹ️ No active check-ins to cancel."])) := by
  simp [cancel_jobs, hl]

theorem cancel_some (st : SchedState) (k : String) (silent : Bool) (a : ActiveSet)
    (hl : st.active.lookup k = some a) :
    cancel_jobs st k silent =
      ({ st with active := eraseKey st.active k, timers := cancelIn st.timers a.jobs },
       true,
       Ev.popEntry k true ::
         (a.jobs.map Ev.cancelTimer ++
          (if silent then [] else [Ev.notify k "🛑 Cancelled any existing schedules."]))) := by
  simp [cancel_jobs, hl]

theorem has_active_state (st : SchedState) (now : Nat) (k : String) :
    (has_active_job st now k).1 = (prune_if_expired st now k).1 := rfl

theorem replace_none (st : SchedState) (now : Nat) (k : String)
    (hl : st.active.lookup k = none) : replace_stage st now k = (st, []) := by
  unfold replace_stage has_active_job
  rw [prune_none st now k hl]
  simp only []
  rw [prune_none st now k hl, hl]
  simp

theorem replace_expired (st : SchedState) (now : Nat) (k : String) (a : ActiveSet)
    (hl : st.active.lookup k = some a) (hexp : now > a.end_dt + 1) :
    (replace_stage st now k).1 =
      { st with active := eraseKey st.active k, timers := cancelIn st.timers a.jobs } := by
  unfold replace_stage has_active_job
  rw [prune_expired st now k a hl hexp]
  simp only []
  rw [prune_none _ now k (show (eraseKey st.active k).lookup k = none from
        lookup_eraseKey_self st.active k)]
  simp [lookup_eraseKey_self]

theorem replace_degenerate (st : SchedState) (now : Nat) (k : String) (a : ActiveSet)
    (hl : st.active.lookup k = some a) (hexp : ¬ now > a.end_dt + 1) (hj : a.jobs = []) :
    (replace_stage st now k).1 = st := by
  unfold replace_stage has_active_job
  rw [prune_live st now k a hl hexp]
  simp only []
  rw [prune_live st now k a hl hexp, hl]
  simp [hj]

theorem replace_live (st : SchedState) (now : Nat) (k : String) (a : ActiveSet)
    (hl : st.active.lookup k = some a) (hexp : ¬ now > a.end_dt + 1) (hj : a.jobs ≠ []) :
    (replace_stage st now k).1 =
      { st with active := eraseKey st.active k, timers := cancelIn st.timers a.jobs } := by
  unfold replace_stage has_active_job
  rw [prune_live st now k a hl hexp]
  simp only []
  rw [prune_live st now k a hl hexp, hl]
  have hb : decide (0 < a.jobs.length) = true := decide_eq_true (List.length_pos.2 hj)
  simp [hb, cancel_some st k true a hl]

theorem replace_of_none (st : SchedState) (now : Nat) (k : String)
    (hl : st.active.lookup k = none) : (replace_stage st now k).1 = st := by
  rw [replace_none st now k hl]

theorem replace_nextId (st : SchedState) (now : Nat) (k : String) :
    (replace_stage st now k).1.nextId = st.nextId := by
  cases hl : st.active.lookup k with
  | none => rw [replace_none st now k hl]
  | some a =>
    by_cases hexp : now > a.end_dt + 1
    · rw [replace_expired st now k a hl hexp]
    · by_cases hj : a.jobs = []
      · rw [replace_degenerate st now k a hl hexp hj]
      · rw [replace_live st now k a hl hexp hj]

theorem replace_tids (st : SchedState) (now : Nat) (k : String) :
    (replace_stage st now k).1.timers.map TimerRec.tid = st.timers.map TimerRec.tid := by
  cases hl : st.active.lookup k with
  | none => rw [replace_none st now k hl]
  | some a =>
    by_cases hexp : now > a.end_dt + 1
    · rw [replace_expired st now k a hl hexp]
      exact cancelIn_tids _ _
    · by_cases hj : a.jobs = []
      · rw [replace_degenerate st now k a hl hexp hj]
      · rw [replace_live st now k a hl hexp hj]
        exact cancelIn_tids _ _

theorem replace_active_cases (st : SchedState) (now : Nat) (k : String) :
    (replace_stage st now k).1.active = st.active ∨
    (replace_stage st now k).1.active = eraseKey st.active k := by
  cases hl : st.active.lookup k with
  | none => rw [replace_none st now k hl]; exact Or.inl rfl
  | some a =>
    by_cases hexp : now > a.end_dt + 1
    · rw [replace_expired st now k a hl hexp]; exact Or.inr rfl
    · by_cases hj : a.jobs = []
      · rw [replace_degenerate st now k a hl hexp hj]; exact Or.inl rfl
      · rw [replace_live st now k a hl hexp hj]; exact Or.inr rfl

theorem replace_keeps_cancelled (st : SchedState) (now : Nat) (k : String) (j : Nat)
    (h : ∀ t ∈ st.timers, t.tid = j → t.cancelled = true) :
    ∀ t ∈ (replace_stage st now k).1.timers, t.tid = j → t.cancelled = true := by
  cases hl : st.active.lookup k with
  | none => rw [replace_none st now k hl]; exact h
  | some a =>
    by_cases hexp : now > a.end_dt + 1
    · rw [replace_expired st now k a hl hexp]
      exact cancelIn_mono _ _ _ h
    · by_cases hj : a.jobs = []
      · rw [replace_degenerate st now k a hl hexp hj]; exact h
      · rw [replace_live st now k a hl hexp hj]
        exact cancelIn_mono _ _ _ h

theorem replace_lookup_some (st : SchedState) (now : Nat) (k : String) (a : ActiveSet)
    (ha : (replace_stage st now k).1.active.lookup k = some a) :
    st.active.lookup k = some a ∧ a.jobs = [] := by
  cases hl : st.active.lookup k with
  | none =>
    rw [replace_of_none st now k hl, hl] at ha
    cases ha
  | some a0 =>
    by_cases hexp : now > a0.end_dt + 1
    · rw [replace_expired st now k a0 hl hexp] at ha
      rw [lookup_eraseKey_self] at ha
      cases ha
    · by_cases hj : a0.jobs = []
      · rw [replace_degenerate st now k a0 hl hexp hj, hl] at ha
        have heq : a = a0 := (Option.some.inj ha).symm
        subst heq
        exact ⟨rfl, hj⟩
      · rw [replace_live st now k a0 hl hexp hj] at ha
        rw [lookup_eraseKey_self] at ha
        cases ha

theorem replace_cancels (st : SchedState) (now : Nat) (k : String) (a : ActiveSet)
    (hl : st.active.lookup k = some a) (hj : a.jobs ≠ []) :
    (replace_stage st now k).1.active.lookup k = none ∧
    (∀ j ∈ a.jobs, ∀ t ∈ (replace_stage st now k).1.timers, t.tid = j → t.cancelled = true) := by
  by_cases hexp : now > a.end_dt + 1
  · rw [replace_expired st now k a hl hexp]
    exact ⟨lookup_eraseKey_self _ _, fun j hjm => cancelIn_cancels _ _ _ hjm⟩
  · rw [replace_live st now k a hl hexp hj]
    exact ⟨lookup_eraseKey_self _ _, fun j hjm => cancelIn_cancels _ _ _ hjm⟩

/-! ### Branch characterizations of `schedule_core` -/

theorem core_tt (st : SchedState) (now : Nat) (k u p : String) (sdt edt : Nat)
    (hs : sdt ≥ now) (he : edt ≥ now) :
    schedule_core st now k u p sdt edt =
      ({ active := (k, ⟨k, u, p, fmtIMp sdt, fmtIMp edt, edt,
            [st.nextId, st.nextId + 1, st.nextId + 2]⟩) :: eraseKey st.active k,
         timers := st.timers ++
           [⟨st.nextId, JobSpec.runOnce sdt (Callback.markStart k u) ("start_" ++ k), false⟩,
            ⟨st.nextId + 1, JobSpec.runRepeating 1800 sdt edt
               (Callback.doCheckin k u p) ("repeat_" ++ k), false⟩,
            ⟨st.nextId + 2, JobSpec.runOnce (edt + 1)
               (Callback.markEnd k (fmtIMp sdt) (fmtIMp edt)) ("end_" ++ k), false⟩],
         nextId := st.nextId + 3 },
       [Ev.notify k ("🕓 Scheduling " ++ u ++ " from " ++ fmtIMp sdt ++ " → " ++
          fmtIMp edt ++ " (Chicago)."),
        Ev.registerTimer st.nextId, Ev.registerTimer (st.nextId + 1),
        Ev.registerTimer (st.nextId + 2)]) := by
  simp [schedule_core, registerJob, hs, he]

theorem core_ft (st : SchedState) (now : Nat) (k u p : String) (sdt edt : Nat)
    (hs : ¬ sdt ≥ now) (he : edt ≥ now) :
    schedule_core st now k u p sdt edt =
      ({ active := (k, ⟨k, u, p, fmtIMp sdt, fmtIMp edt, edt,
            [st.nextId, st.nextId + 1]⟩) :: eraseKey st.active k,
         timers := st.timers ++
           [⟨st.nextId, JobSpec.runRepeating 1800 sdt edt
               (Callback.doCheckin k u p) ("repeat_" ++ k), false⟩,
            ⟨st.nextId + 1, JobSpec.runOnce (edt + 1)
               (Callback.markEnd k (fmtIMp sdt) (fmtIMp edt)) ("end_" ++ k), false⟩],
         nextId := st.nextId + 2 },
       [Ev.notify k ("🕓 Scheduling " ++ u ++ " from " ++ fmtIMp sdt ++ " → " ++
          fmtIMp edt ++ " (Chicago)."),
        Ev.notify k ("🚀 Start window for " ++ u),
        Ev.registerTimer st.nextId, Ev.registerTimer (st.nextId + 1)]) := by
  simp [schedule_core, registerJob, hs, he]

theorem core_tf (st : SchedState) (now : Nat) (k u p : String) (sdt edt : Nat)
    (hs : sdt ≥ now) (he : ¬ edt ≥ now) :
    schedule_core st now k u p sdt edt =
      ({ active := eraseKey st.active k,
         timers := st.timers ++
           [⟨st.nextId, JobSpec.runOnce sdt (Callback.markStart k u) ("start_" ++ k), false⟩,
            ⟨st.nextId + 1, JobSpec.runRepeating 1800 sdt edt
               (Callback.doCheckin k u p) ("repeat_" ++ k), false⟩],
         nextId := st.nextId + 2 },
       [Ev.notify k ("🕓 Scheduling " ++ u ++ " from " ++ fmtIMp sdt ++ " → " ++
          fmtIMp edt ++ " (Chicago)."),
        Ev.registerTimer st.nextId, Ev.registerTimer (st.nextId + 1),
        Ev.popEntry k ((st.active.lookup k).isSome),
        Ev.notify k ("ℹ️ The schedule window " ++ fmtIMp sdt ++ "–" ++ fmtIMp edt ++
          " has already ended.")]) := by
  simp [schedule_core, registerJob, hs, he]

theorem core_ff (st : SchedState) (now : Nat) (k u p : String) (sdt edt : Nat)
    (hs : ¬ sdt ≥ now) (he : ¬ edt ≥ now) :
    schedule_core st now k u p sdt edt =
      ({ active := eraseKey st.active k,
         timers := st.timers ++
           [⟨st.nextId, JobSpec.runRepeating 1800 sdt edt
               (Callback.doCheckin k u p) ("repeat_" ++ k), false⟩],
         nextId := st.nextId + 1 },
       [Ev.notify k ("🕓 Scheduling " ++ u ++ " from " ++ fmtIMp sdt ++ " → " ++
          fmtIMp edt ++ " (Chicago)."),
        Ev.notify k ("🚀 Start window for " ++ u),
        Ev.registerTimer st.nextId,
        Ev.popEntry k ((st.active.lookup k).isSome),
        Ev.notify k ("ℹ️ The schedule window " ++ fmtIMp sdt ++ "–" ++ fmtIMp edt ++
          " has already ended.")]) := by
  simp [schedule_core, registerJob, hs, he]

theorem lookup_cons_self (k : String) (a : ActiveSet) (l : List (String × ActiveSet)) :
    ((k, a) :: l).lookup k = some a := by
  simp [List.lookup_cons]

theorem lookup_cons_ne (k k' : String) (a : ActiveSet) (l : List (String × ActiveSet))
    (h : k' ≠ k) : ((k, a) :: l).lookup k' = l.lookup k' := by
  simp [List.lookup_cons, beq_eq_false_iff_ne.2 h]

theorem lookup_some_countKey_pos (l : List (String × ActiveSet)) (k : String) (a : ActiveSet)
    (h : l.lookup k = some a) : 1 ≤ countKey l k := by
  induction l with
  | nil => cases h
  | cons p t ih =>
    obtain ⟨pk, pa⟩ := p
    by_cases hp : pk = k
    · simp [countKey, hp]
    · rw [lookup_cons_ne pk k pa t (Ne.symm hp)] at h
      have := ih h
      simp [countKey, hp]
      omega

theorem mem_tid_lt (ts : List TimerRec) (n : Nat) (t : TimerRec)
    (hmap : ∀ i ∈ ts.map TimerRec.tid, i < n) (ht : t ∈ ts) : t.tid < n :=
  hmap t.tid (List.mem_map.2 ⟨t, ht, rfl⟩)

theorem replace_WF (st : SchedState) (now : Nat) (k : String) (hwf : WF st) :
    WF (replace_stage st now k).1 := by
  obtain ⟨h1, h2, h3⟩ := hwf
  refine ⟨?_, ?_, ?_⟩
  · intro k'
    rcases replace_active_cases st now k with hc | hc
    · rw [hc]; exact h1 k'
    · rw [hc]; exact le_trans (countKey_eraseKey_le _ _ _) (h1 k')
  · intro k' a ha
    have hst : st.active.lookup k' = some a := by
      rcases replace_active_cases st now k with hc | hc
      · rwa [hc] at ha
      · rw [hc] at ha
        exact lookup_eraseKey_some _ _ _ _ ha
    obtain ⟨hne, hlt⟩ := h2 k' a hst
    exact ⟨hne, fun j hj => (replace_nextId st now k).symm ▸ hlt j hj⟩
  · intro t ht
    have hmap : ∀ i ∈ (replace_stage st now k).1.timers.map TimerRec.tid, i < st.nextId := by
      rw [replace_tids st now k]
      intro i hi
      obtain ⟨t0, ht0, rfl⟩ := List.mem_map.1 hi
      exact h3 t0 ht0
    rw [replace_nextId st now k]
    exact mem_tid_lt _ _ _ hmap ht

theorem core_nextId_ge (st : SchedState) (now : Nat) (k u p : String) (sdt edt : Nat) :
    st.nextId ≤ (schedule_core st now k u p sdt edt).1.nextId := by
  by_cases hs : sdt ≥ now <;> by_cases he : edt ≥ now
  · rw [core_tt st now k u p sdt edt hs he]; exact Nat.le_add_right _ 3
  · rw [core_tf st now k u p sdt edt hs he]; exact Nat.le_add_right _ 2
  · rw [core_ft st now k u p sdt edt hs he]; exact Nat.le_add_right _ 2
  · rw [core_ff st now k u p sdt edt hs he]; exact Nat.le_add_right _ 1

theorem core_timers_shape (st : SchedState) (now : Nat) (k u p : String) (sdt edt : Nat) :
    ∃ recs, (schedule_core st now k u p sdt edt).1.timers = st.timers ++ recs ∧
      ∀ t ∈ recs, st.nextId ≤ t.tid ∧ t.tid < (schedule_core st now k u p sdt edt).1.nextId ∧
        t.cancelled = false := by
  by_cases hs : sdt ≥ now <;> by_cases he : edt ≥ now
  · rw [core_tt st now k u p sdt edt hs he]
    refine ⟨_, rfl, ?_⟩
    intro t ht
    simp at ht
    rcases ht with rfl | rfl | rfl <;> simp
  · rw [core_tf st now k u p sdt edt hs he]
    refine ⟨_, rfl, ?_⟩
    intro t ht
    simp at ht
    rcases ht with rfl | rfl <;> simp
  · rw [core_ft st now k u p sdt edt hs he]
    refine ⟨_, rfl, ?_⟩
    intro t ht
    simp at ht
    rcases ht with rfl | rfl <;> simp
  · rw [core_ff st now k u p sdt edt hs he]
    refine ⟨_, rfl, ?_⟩
    intro t ht
    simp at ht
    rcases ht with rfl
    simp

theorem core_keeps_cancelled (st : SchedState) (now : Nat) (k u p : String) (sdt edt : Nat)
    (j : Nat) (hjlt : j < st.nextId)
    (h : ∀ t ∈ st.timers, t.tid = j → t.cancelled = true) :
    ∀ t ∈ (schedule_core st now k u p sdt edt).1.timers, t.tid = j → t.cancelled = true := by
  obtain ⟨recs, hshape, hrecs⟩ := core_timers_shape st now k u p sdt edt
  rw [hshape]
  intro t ht htid
  rcases List.mem_append.1 ht with hold | hnew
  · exact h t hold htid
  · obtain ⟨hge, _, _⟩ := hrecs t hnew
    omega

theorem core_stored_or_dropped (st : SchedState) (now : Nat) (k u p : String) (sdt edt : Nat) :
    (∃ aset,
        (schedule_core st now k u p sdt edt).1.active = (k, aset) :: eraseKey st.active k ∧
        aset.jobs ≠ [] ∧
        (∀ j ∈ aset.jobs, st.nextId ≤ j ∧ j < (schedule_core st now k u p sdt edt).1.nextId) ∧
        (∀ j ∈ aset.jobs, ∃ t ∈ (schedule_core st now k u p sdt edt).1.timers,
            t.tid = j ∧ t.cancelled = false)) ∨
    (schedule_core st now k u p sdt edt).1.active = eraseKey st.active k := by
  by_cases hs : sdt ≥ now <;> by_cases he : edt ≥ now
  · left
    rw [core_tt st now k u p sdt edt hs he]
    refine ⟨_, rfl, by simp, ?_, ?_⟩
    · intro j hj
      simp at hj
      rcases hj with rfl | rfl | rfl
      · exact ⟨Nat.le_refl _, show st.nextId < st.nextId + 3 by omega⟩
      · exact ⟨by omega, show st.nextId + 1 < st.nextId + 3 by omega⟩
      · exact ⟨by omega, show st.nextId + 2 < st.nextId + 3 by omega⟩
    · intro j hj
      simp at hj
      rcases hj with rfl | rfl | rfl
      · refine ⟨⟨st.nextId, JobSpec.runOnce sdt
          (Callback.markStart k u) ("start_" ++ k), false⟩, by simp, rfl, rfl⟩
      · refine ⟨⟨st.nextId + 1, JobSpec.runRepeating 1800 sdt edt
          (Callback.doCheckin k u p) ("repeat_" ++ k), false⟩, by simp, rfl, rfl⟩
      · refine ⟨⟨st.nextId + 2, JobSpec.runOnce (edt + 1)
          (Callback.markEnd k (fmtIMp sdt) (fmtIMp edt)) ("end_" ++ k), false⟩, by simp, rfl, rfl⟩
  · right
    rw [core_tf st now k u p sdt edt hs he]
  · left
    rw [core_ft st now k u p sdt edt hs he]
    refine ⟨_, rfl, by simp, ?_, ?_⟩
    · intro j hj
      simp at hj
      rcases hj with rfl | rfl
      · exact ⟨Nat.le_refl _, show st.nextId < st.nextId + 2 by omega⟩
      · exact ⟨by omega, show st.nextId + 1 < st.nextId + 2 by omega⟩
    · intro j hj
      simp at hj
      rcases hj with rfl | rfl
      · refine ⟨⟨st.nextId, JobSpec.runRepeating 1800 sdt edt
          (Callback.doCheckin k u p) ("repeat_" ++ k), false⟩, by simp, rfl, rfl⟩
      · refine ⟨⟨st.nextId + 1, JobSpec.runOnce (edt + 1)
          (Callback.markEnd k (fmtIMp sdt) (fmtIMp edt)) ("end_" ++ k), false⟩, by simp, rfl, rfl⟩
  · right
    rw [core_ff st now k u p sdt edt hs he]

theorem core_WF (st : SchedState) (now : Nat) (k u p : String) (sdt edt : Nat) (hwf : WF st) :
    WF (schedule_core st now k u p sdt edt).1 := by
  obtain ⟨h1, h2, h3⟩ := hwf
  obtain ⟨recs, hshape, hrecs⟩ := core_timers_shape st now k u p sdt edt
  have hnext := core_nextId_ge st now k u p sdt edt
  refine ⟨?_, ?_, ?_⟩
  · intro k'
    rcases core_stored_or_dropped st now k u p sdt edt with ⟨aset, hc, _, _, _⟩ | hc
    · rw [hc]
      by_cases hk : k' = k
      · subst hk
        rw [countKey_cons]
        simp [countKey_eraseKey_self]
      · rw [countKey_cons]
        have : ¬ (k = k') := fun hh => hk hh.symm
        simp only [this, if_false]
        calc (0 : Nat) + countKey (eraseKey st.active k) k' ≤ countKey st.active k' := by
              have := countKey_eraseKey_le st.active k k'
              omega
          _ ≤ 1 := h1 k'
    · rw [hc]
      exact le_trans (countKey_eraseKey_le _ _ _) (h1 k')
  · intro k' a ha
    rcases core_stored_or_dropped st now k u p sdt edt with ⟨aset, hc, hne, hrange, _⟩ | hc
    · rw [hc] at ha
      by_cases hk : k' = k
      · subst hk
        rw [lookup_cons_self] at ha
        have heq : aset = a := Option.some.inj ha
        subst heq
        exact ⟨hne, fun j hj => (hrange j hj).2⟩
      · rw [lookup_cons_ne _ _ _ _ hk] at ha
        have := h2 k' a (lookup_eraseKey_some _ _ _ _ ha)
        exact ⟨this.1, fun j hj => lt_of_lt_of_le (this.2 j hj) hnext⟩
    · rw [hc] at ha
      have := h2 k' a (lookup_eraseKey_some _ _ _ _ ha)
      exact ⟨this.1, fun j hj => lt_of_lt_of_le (this.2 j hj) hnext⟩
  · intro t ht
    rw [hshape] at ht
    rcases List.mem_append.1 ht with hold | hnew
    · exact lt_of_lt_of_le (h3 t hold) hnext
    · exact (hrecs t hnew).2.1

/-! ### `schedule_user`-level lemmas -/

theorem schedule_user_parse_fail_start (st : SchedState) (now : Nat) (cid : Int)
    (u p s e : String) (m : Bool) (hps : parse_time_h12 s = none) :
    schedule_user st now cid u p s e m =
      ((replace_stage st now (toString cid)).1,
       (replace_stage st now (toString cid)).2 ++
         [Ev.notify (toString cid) (invalidTimeText s)]) := by
  unfold schedule_user
  simp [hps]

theorem schedule_user_parse_fail_end (st : SchedState) (now : Nat) (cid : Int)
    (u p s e : String) (m : Bool) (s_t : Tod)
    (hps : parse_time_h12 s = some s_t) (hpe : parse_time_h12 e = none) :
    schedule_user st now cid u p s e m =
      ((replace_stage st now (toString cid)).1,
       (replace_stage st now (toString cid)).2 ++
         [Ev.notify (toString cid) (invalidTimeText e)]) := by
  unfold schedule_user
  simp [hps, hpe]

theorem schedule_user_parse_ok (st : SchedState) (now : Nat) (cid : Int)
    (u p s e : String) (m : Bool) (s_t e_t : Tod)
    (hps : parse_time_h12 s = some s_t) (hpe : parse_time_h12 e = some e_t) :
    schedule_user st now cid u p s e m =
      ((schedule_core (replace_stage st now (toString cid)).1 now (toString cid) u p
          (computeWindow now s_t e_t m).1 (computeWindow now s_t e_t m).2).1,
       (replace_stage st now (toString cid)).2 ++
         (schedule_core (replace_stage st now (toString cid)).1 now (toString cid) u p
           (computeWindow now s_t e_t m).1 (computeWindow now s_t e_t m).2).2) := by
  unfold schedule_user
  simp [hps, hpe]

theorem schedule_user_cases (st : SchedState) (now : Nat) (cid : Int)
    (u p s e : String) (m : Bool) :
    (schedule_user st now cid u p s e m).1 = (replace_stage st now (toString cid)).1 ∨
    ∃ s_t e_t, parse_time_h12 s = some s_t ∧ parse_time_h12 e = some e_t ∧
      (schedule_user st now cid u p s e m).1 =
        (schedule_core (replace_stage st now (toString cid)).1 now (toString cid) u p
          (computeWindow now s_t e_t m).1 (computeWindow now s_t e_t m).2).1 := by
  cases hps : parse_time_h12 s with
  | none => rw [schedule_user_parse_fail_start st now cid u p s e m hps]; exact Or.inl rfl
  | some s_t =>
    cases hpe : parse_time_h12 e with
    | none =>
      rw [schedule_user_parse_fail_end st now cid u p s e m s_t hps hpe]
      exact Or.inl rfl
    | some e_t =>
      rw [schedule_user_parse_ok st now cid u p s e m s_t e_t hps hpe]
      exact Or.inr ⟨s_t, e_t, rfl, rfl, rfl⟩

theorem schedule_user_WF (st : SchedState) (now : Nat) (cid : Int)
    (u p s e : String) (m : Bool) (hwf : WF st) :
    WF (schedule_user st now cid u p s e m).1 := by
  rcases schedule_user_cases st now cid u p s e m with h | ⟨s_t, e_t, _, _, h⟩
  · rw [h]; exact replace_WF _ _ _ hwf
  · rw [h]; exact core_WF _ _ _ _ _ _ _ (replace_WF _ _ _ hwf)

theorem schedule_user_nextId_ge (st : SchedState) (now : Nat) (cid : Int)
    (u p s e : String) (m : Bool) :
    st.nextId ≤ (schedule_user st now cid u p s e m).1.nextId := by
  rcases schedule_user_cases st now cid u p s e m with h | ⟨s_t, e_t, _, _, h⟩
  · rw [h, replace_nextId]
  · rw [h]
    calc st.nextId = (replace_stage st now (toString cid)).1.nextId :=
          (replace_nextId st now (toString cid)).symm
      _ ≤ _ := core_nextId_ge _ _ _ _ _ _ _

theorem schedule_user_cancels_prior (st : SchedState) (now : Nat) (cid : Int)
    (u p s e : String) (m : Bool) (hwf : WF st) (a : ActiveSet)
    (hl : st.active.lookup (toString cid) = some a) :
    ∀ j ∈ a.jobs, ∀ t ∈ (schedule_user st now cid u p s e m).1.timers,
      t.tid = j → t.cancelled = true := by
  have hjobs := hwf.2.1 (toString cid) a hl
  obtain ⟨hnone, hcanc⟩ := replace_cancels st now (toString cid) a hl hjobs.1
  rcases schedule_user_cases st now cid u p s e m with h | ⟨s_t, e_t, _, _, h⟩
  · rw [h]
    exact hcanc
  · rw [h]
    intro j hj
    refine core_keeps_cancelled _ _ _ _ _ _ _ j ?_ (hcanc j hj)
    rw [replace_nextId]
    exact hjobs.2 j hj

/-! ### Validity of parsed times of day -/

theorem char_le_toNat (a b : Char) : a ≤ b ↔ a.toNat ≤ b.toNat := by
  exact_mod_cast Iff.rfl

theorem isDigit_toNat (c : Char) (h : c.isDigit = true) : 48 ≤ c.toNat ∧ c.toNat ≤ 57 := by
  simp only [Char.isDigit, ge_iff_le, Bool.and_eq_true, decide_eq_true_eq] at h
  exact ⟨by exact_mod_cast h.1, by exact_mod_cast h.2⟩

theorem hourCands_range (cs : List Char) (pr : Nat × List Char) (h : pr ∈ hourCands cs) :
    1 ≤ pr.1 ∧ pr.1 ≤ 12 := by
  cases cs with
  | nil => cases h
  | cons c rest =>
    simp only [hourCands] at h
    rcases List.mem_append.1 h with h1 | h1
    · split at h1
      · rename_i d rest2
        split at h1
        · rename_i hd
          rw [char_le_toNat, char_le_toNat] at hd
          have e0 : ('0' : Char).toNat = 48 := rfl
          have e2 : ('2' : Char).toNat = 50 := rfl
          simp at h1
          subst h1
          simp [digitVal]
          omega
        · cases h1
      · rename_i d rest2
        split at h1
        · rename_i hd
          rw [char_le_toNat, char_le_toNat] at hd
          have e1 : ('1' : Char).toNat = 49 := rfl
          have e9 : ('9' : Char).toNat = 57 := rfl
          simp at h1
          subst h1
          simp [digitVal]
          omega
        · cases h1
      · cases h1
    · split at h1
      · rename_i hc
        rw [char_le_toNat, char_le_toNat] at hc
        have e1 : ('1' : Char).toNat = 49 := rfl
        have e9 : ('9' : Char).toNat = 57 := rfl
        simp at h1
        subst h1
        simp [digitVal]
        omega
      · cases h1

theorem minuteCands_range (cs : List Char) (pr : Nat × List Char) (h : pr ∈ minuteCands cs) :
    pr.1 ≤ 59 := by
  cases cs with
  | nil => cases h
  | cons a tail =>
    cases tail with
    | nil =>
      simp only [minuteCands] at h
      split at h
      · rename_i ha
        have := isDigit_toNat a ha
        simp at h
        subst h
        simp [digitVal]
        omega
      · cases h
    | cons b rest =>
      simp only [minuteCands] at h
      rcases List.mem_append.1 h with h1 | h1
      · split at h1
        · rename_i hab
          obtain ⟨ha1, ha2, hb⟩ := hab
          rw [char_le_toNat] at ha1
          rw [char_le_toNat] at ha2
          have e0 : ('0' : Char).toNat = 48 := rfl
          have e5 : ('5' : Char).toNat = 53 := rfl
          have := isDigit_toNat b hb
          simp at h1
          subst h1
          simp [digitVal]
          omega
        · cases h1
      · split at h1
        · rename_i ha
          have := isDigit_toNat a ha
          simp at h1
          subst h1
          simp [digitVal]
          omega
        · cases h1

theorem applyAmPm_lt (h : Nat) (pm : Bool) (h1 : 1 ≤ h) (h2 : h ≤ 12) :
    applyAmPm h pm < 24 := by
  unfold applyAmPm
  split <;> split <;> omega

theorem fmtColon_valid (cs : List Char) (t : Tod) (h : fmtColon cs = some t) :
    t.hour < 24 ∧ t.minute < 60 := by
  unfold fmtColon at h
  obtain ⟨hr, hmem, hsome⟩ := List.exists_of_findSome?_eq_some h
  split at hsome
  · obtain ⟨mr, hmm, hsome2⟩ := List.exists_of_findSome?_eq_some hsome
    cases hap : ampmEnd mr.2 with
    | none => rw [hap] at hsome2; cases hsome2
    | some pm =>
      rw [hap] at hsome2
      simp at hsome2
      subst hsome2
      obtain ⟨hh1, hh2⟩ := hourCands_range cs hr hmem
      have hm := minuteCands_range _ mr hmm
      exact ⟨applyAmPm_lt hr.1 pm hh1 hh2, show mr.1 < 60 by omega⟩
  · cases hsome

theorem fmtColonWs_valid (cs : List Char) (t : Tod) (h : fmtColonWs cs = some t) :
    t.hour < 24 ∧ t.minute < 60 := by
  unfold fmtColonWs at h
  obtain ⟨hr, hmem, hsome⟩ := List.exists_of_findSome?_eq_some h
  split at hsome
  · obtain ⟨mr, hmm, hsome2⟩ := List.exists_of_findSome?_eq_some hsome
    split at hsome2
    · split at hsome2
      · cases hap : ampmEnd (List.dropWhile isPyWs _) with
        | none =>
          rw [hap] at hsome2
          cases hsome2
        | some pm =>
          rw [hap] at hsome2
          simp at hsome2
          subst hsome2
          obtain ⟨hh1, hh2⟩ := hourCands_range cs hr hmem
          have hm := minuteCands_range _ mr hmm
          exact ⟨applyAmPm_lt hr.1 pm hh1 hh2, show mr.1 < 60 by omega⟩
      · cases hsome2
    · cases hsome2
  · cases hsome

theorem fmtBare_valid (cs : List Char) (t : Tod) (h : fmtBare cs = some t) :
    t.hour < 24 ∧ t.minute < 60 := by
  unfold fmtBare at h
  obtain ⟨hr, hmem, hsome⟩ := List.exists_of_findSome?_eq_some h
  cases hap : ampmEnd hr.2 with
  | none => rw [hap] at hsome; cases hsome
  | some pm =>
    rw [hap] at hsome
    simp at hsome
    subst hsome
    obtain ⟨hh1, hh2⟩ := hourCands_range cs hr hmem
    exact ⟨applyAmPm_lt hr.1 pm hh1 hh2, show (0 : Nat) < 60 by omega⟩

theorem parse_time_h12_valid (s : String) (t : Tod) (h : parse_time_h12 s = some t) :
    t.hour < 24 ∧ t.minute < 60 := by
  unfold parse_time_h12 at h
  rcases (Option.orElse_eq_some _ _ _).1 h with h1 | ⟨_, h1⟩
  · exact fmtColon_valid _ t h1
  · rcases (Option.orElse_eq_some _ _ _).1 h1 with h2 | ⟨_, h2⟩
    · exact fmtColonWs_valid _ t h2
    · exact fmtBare_valid _ t h2

/-! ### Window-computation lemmas -/

theorem computeWindow_eq (now : Nat) (s e : Tod) (m : Bool) :
    computeWindow now s e m =
      if m ∧ wrappedEnd now s e ≤ now
      then (mk_today_time now s + daySecs, wrappedEnd now s e + daySecs)
      else (mk_today_time now s, wrappedEnd now s e) := rfl

theorem computeWindow_lt (now : Nat) (s e : Tod) (m : Bool)
    (hs : s.hour < 24 ∧ s.minute < 60) (he : e.hour < 24 ∧ e.minute < 60) :
    (computeWindow now s e m).1 < (computeWindow now s e m).2 := by
  obtain ⟨hsh, hsm⟩ := hs
  obtain ⟨heh, hem⟩ := he
  rw [computeWindow_eq]
  unfold wrappedEnd mk_today_time daySecs at *
  split
  · split
    · simp
      omega
    · simp
      omega
  · split
    · simp
      omega
    · simp
      rename_i hcond hnw
      omega

theorem computeWindow_wrap (now : Nat) (s e : Tod)
    (hw : mk_today_time now e ≤ mk_today_time now s) :
    (computeWindow now s e false).2 = mk_today_time now e + daySecs := by
  rw [computeWindow_eq]
  unfold wrappedEnd
  simp [hw]

theorem computeWindow_restore (now : Nat) (s e : Tod) (hle : wrappedEnd now s e ≤ now) :
    computeWindow now s e true =
      (mk_today_time now s + daySecs, wrappedEnd now s e + daySecs) := by
  rw [computeWindow_eq]
  simp [hle]

theorem wrappedEnd_ge_base (now : Nat) (s e : Tod) :
    now - now % daySecs ≤ wrappedEnd now s e := by
  unfold wrappedEnd mk_today_time
  split <;> omega

/-! ### Claim theorems -/

/-- C4: for every pair of parsed times of day anchored to the current
date, if the naive same-day end instant is at or before the start instant
then the window computation adds 24 hours to the end instant (overnight
wraparound), and for every input (restore mode or not) the computed end
instant is strictly later than the computed start instant. -/
theorem C4_wraparound (now : Nat) (ss es : String) (s_t e_t : Tod)
    (hps : parse_time_h12 ss = some s_t) (hpe : parse_time_h12 es = some e_t) :
    (mk_today_time now e_t ≤ mk_today_time now s_t →
       (computeWindow now s_t e_t false).2 = mk_today_time now e_t + daySecs) ∧
    (∀ m : Bool, (computeWindow now s_t e_t m).1 < (computeWindow now s_t e_t m).2) := by
  have hvs := parse_time_h12_valid ss s_t hps
  have hve := parse_time_h12_valid es e_t hpe
  exact ⟨fun hw => computeWindow_wrap now s_t e_t hw,
         fun m => computeWindow_lt now s_t e_t m hvs hve⟩

/-- Witness for C4 at a concrete overnight window 11:00PM → 1:00AM. -/
theorem C4_witness :
    (computeWindow 1000 ⟨23, 0⟩ ⟨1, 0⟩ false).2 = mk_today_time 1000 ⟨1, 0⟩ + daySecs ∧
    (computeWindow 1000 ⟨23, 0⟩ ⟨1, 0⟩ false).1 < (computeWindow 1000 ⟨23, 0⟩ ⟨1, 0⟩ false).2 :=
  ⟨(C4_wraparound 1000 "11:00PM" "1:00AM" ⟨23, 0⟩ ⟨1, 0⟩ (by decide) (by decide)).1
     (by decide),
   (C4_wraparound 1000 "11:00PM" "1:00AM" ⟨23, 0⟩ ⟨1, 0⟩ (by decide) (by decide)).2 false⟩

/-- C5: for every restore-mode window computation in which the
wraparound-adjusted end instant is at or before `now`, the computation
adds exactly 24 hours to both instants, preserves the window's duration,
and the resulting end instant is strictly after `now`. -/
theorem C5_restore_shift (now : Nat) (s_t e_t : Tod)
    (hpast : wrappedEnd now s_t e_t ≤ now) :
    computeWindow now s_t e_t true =
      (mk_today_time now s_t + daySecs, wrappedEnd now s_t e_t + daySecs) ∧
    (computeWindow now s_t e_t true).2 - (computeWindow now s_t e_t true).1 =
      wrappedEnd now s_t e_t - mk_today_time now s_t ∧
    now < (computeWindow now s_t e_t true).2 := by
  have hshift := computeWindow_restore now s_t e_t hpast
  refine ⟨hshift, ?_, ?_⟩
  · rw [hshift]
    omega
  · rw [hshift]
    have := wrappedEnd_ge_base now s_t e_t
    unfold daySecs at *
    simp
    omega

/-- Witness for C5: restoring a 9:00AM-1:00PM window at 2:00PM shifts it
to the next day. -/
theorem C5_witness :
    computeWindow (19783 * daySecs + 14 * 3600) ⟨9, 0⟩ ⟨13, 0⟩ true =
      (mk_today_time (19783 * daySecs + 14 * 3600) ⟨9, 0⟩ + daySecs,
       wrappedEnd (19783 * daySecs + 14 * 3600) ⟨9, 0⟩ ⟨13, 0⟩ + daySecs) ∧
    (19783 * daySecs + 14 * 3600) <
      (computeWindow (19783 * daySecs + 14 * 3600) ⟨9, 0⟩ ⟨13, 0⟩ true).2 :=
  ⟨(C5_restore_shift (19783 * daySecs + 14 * 3600) ⟨9, 0⟩ ⟨13, 0⟩ (by decide)).1,
   (C5_restore_shift (19783 * daySecs + 14 * 3600) ⟨9, 0⟩ ⟨13, 0⟩ (by decide)).2.2⟩

/-- C10 (implicit): the window query does no lazy pruning — for an entry
whose window is already expired past the one-second grace (and which no
`has_active_job` or `schedule_user` call has pruned yet), it still
returns the stored display strings rather than `none`. -/
theorem C10_get_info_no_prune (st : SchedState) (now : Nat) (cid : String) (a : ActiveSet)
    (hl : st.active.lookup cid = some a) (_hexp : now > a.end_dt + 1) :
    get_active_job_info st cid = some (a.window_start, a.window_end) := by
  unfold get_active_job_info
  rw [hl]

/-- Witness for C10: at a time one hour past the window end the query
still reports the expired window. -/
theorem C10_witness :
    get_active_job_info exampleLive "42" = some ("09:00 AM", "01:00 PM") :=
  C10_get_info_no_prune exampleLive (day0 + 14 * 3600) "42"
    ⟨"42", "u", "p", "09:00 AM", "01:00 PM", day0 + 13 * 3600, [0]⟩
    (by decide) (by decide)

/-- C7: cancellation removes the registry entry as its first action
(before any timer-handle cancellation); with no entry present it returns
`false`, state unchanged, and sends exactly one nothing-to-cancel
notification unless silent (zero when silent); with an entry present it
cancels every stored handle and returns `true`, the trace being the pop,
then the handle cancellations, then the optional notification. -/
theorem C7_cancel_spec (st : SchedState) (cid : String) (silent : Bool) :
    ((cancel_jobs st cid silent).2.2.head? =
       some (Ev.popEntry cid (st.active.lookup cid).isSome)) ∧
    (st.active.lookup cid = none →
       (cancel_jobs st cid silent).2.1 = false ∧
       (cancel_jobs st cid silent).1 = st ∧
       notifyCount (cancel_jobs st cid silent).2.2 = (if silent then 0 else 1) ∧
       (silent = false →
          (cancel_jobs st cid silent).2.2 =
            [Ev.popEntry cid false, Ev.notify cid "ℹ️ No active check-ins to cancel."])) ∧
    (∀ a, st.active.lookup cid = some a →
       (cancel_jobs st cid silent).2.1 = true ∧
       (cancel_jobs st cid silent).1.active.lookup cid = none ∧
       (∀ j ∈ a.jobs, timerCancelled (cancel_jobs st cid silent).1 j) ∧
       (cancel_jobs st cid silent).2.2 =
         Ev.popEntry cid true ::
           (a.jobs.map Ev.cancelTimer ++
            (if silent then [] else [Ev.notify cid "🛑 Cancelled any existing schedules."]))) := by
  cases hl : st.active.lookup cid with
  | none =>
    rw [cancel_none st cid silent hl]
    refine ⟨rfl, fun _ => ⟨rfl, rfl, ?_, fun hs => by subst hs; rfl⟩, ?_⟩
    · cases silent <;> simp [notifyCount]
    · intro a ha
      cases ha
  | some a0 =>
    rw [cancel_some st cid silent a0 hl]
    refine ⟨rfl, ?_, ?_⟩
    · intro hnone
      cases hnone
    · intro a ha
      have heq : a0 = a := Option.some.inj ha
      subst heq
      refine ⟨rfl, lookup_eraseKey_self _ _, ?_, rfl⟩
      intro j hj
      exact cancelIn_cancels _ _ _ hj

/-- Witness for C7: cancelling with nothing registered (silent) returns
`false` with no notification; cancelling a live entry returns `true` and
empties the registry. -/
theorem C7_witness :
    ((cancel_jobs emptyState "42" true).2.1 = false ∧
     (cancel_jobs emptyState "42" true).1 = emptyState ∧
     notifyCount (cancel_jobs emptyState "42" true).2.2 = 0) ∧
    ((cancel_jobs exampleLive "42" false).2.1 = true ∧
     (cancel_jobs exampleLive "42" false).1.active.lookup "42" = none) :=
  ⟨⟨((C7_cancel_spec emptyState "42" true).2.1 rfl).1,
    ((C7_cancel_spec emptyState "42" true).2.1 rfl).2.1,
    ((C7_cancel_spec emptyState "42" true).2.1 rfl).2.2.1⟩,
   ⟨((C7_cancel_spec exampleLive "42" false).2.2
       ⟨"42", "u", "p", "09:00 AM", "01:00 PM", day0 + 13 * 3600, [0]⟩ rfl).1,
    ((C7_cancel_spec exampleLive "42" false).2.2
       ⟨"42", "u", "p", "09:00 AM", "01:00 PM", day0 + 13 * 3600, [0]⟩ rfl).2.1⟩⟩

/-- C8: for a user with an active schedule (nonempty job list), the
activity query returns `true` exactly while `now` is at or before the
window end plus the one-second grace; once `now` is strictly past it the
query lazily prunes the entry — cancelling its lingering timers — and
returns `false`, with no explicit cancel call. -/
theorem C8_has_active_prunes (st : SchedState) (now : Nat) (cid : String) (a : ActiveSet)
    (hl : st.active.lookup cid = some a) (hj : a.jobs ≠ []) :
    ((has_active_job st now cid).2.1 = true ↔ now ≤ a.end_dt + 1) ∧
    (now > a.end_dt + 1 →
       (has_active_job st now cid).1.active.lookup cid = none ∧
       ∀ j ∈ a.jobs, timerCancelled (has_active_job st now cid).1 j) := by
  by_cases hexp : now > a.end_dt + 1
  · unfold has_active_job
    rw [prune_expired st now cid a hl hexp]
    refine ⟨?_, fun _ => ⟨lookup_eraseKey_self _ _,
      fun j hjm => cancelIn_cancels _ _ _ hjm⟩⟩
    simp [lookup_eraseKey_self]
    omega
  · unfold has_active_job
    rw [prune_live st now cid a hl hexp]
    simp only [hl]
    constructor
    · have hb : decide (0 < a.jobs.length) = true := decide_eq_true (List.length_pos.2 hj)
      simp [hb]
      omega
    · intro hc
      exact absurd hc hexp

/-- Witness for C8: the example live entry reports active at 13:00:01 and
is pruned (reporting inactive) at 14:00. -/
theorem C8_witness :
    ((has_active_job exampleLive (day0 + 13 * 3600 + 1) "42").2.1 = true) ∧
    ((has_active_job exampleLive (day0 + 14 * 3600) "42").2.1 = false ∧
     (has_active_job exampleLive (day0 + 14 * 3600) "42").1.active.lookup "42" = none) := by
  constructor
  · exact (C8_has_active_prunes exampleLive (day0 + 13 * 3600 + 1) "42"
      ⟨"42", "u", "p", "09:00 AM", "01:00 PM", day0 + 13 * 3600, [0]⟩ rfl
      (by decide)).1.2 (by decide)
  · constructor
    · have h := (C8_has_active_prunes exampleLive (day0 + 14 * 3600) "42"
        ⟨"42", "u", "p", "09:00 AM", "01:00 PM", day0 + 13 * 3600, [0]⟩ rfl
        (by decide)).1
      by_cases hb : (has_active_job exampleLive (day0 + 14 * 3600) "42").2.1 = true
      · exact absurd (h.1 hb) (by decide)
      · simpa using hb
    · exact ((C8_has_active_prunes exampleLive (day0 + 14 * 3600) "42"
        ⟨"42", "u", "p", "09:00 AM", "01:00 PM", day0 + 13 * 3600, [0]⟩ rfl
        (by decide)).2 (by decide)).1

theorem WF_emptyState : WF emptyState := by
  refine ⟨fun k => ?_, fun k a ha => ?_, fun t ht => ?_⟩
  · exact Nat.zero_le 1
  · cases ha
  · cases ht

theorem replace_stage_frozen (st : SchedState) (now : Nat) (k : String) (hwf : WF st) :
    (replace_stage st now k).1.nextId = st.nextId ∧
    (replace_stage st now k).1.timers.map TimerRec.tid = st.timers.map TimerRec.tid ∧
    (replace_stage st now k).1.active.lookup k = none ∧
    (∀ k2, k2 ≠ k → (replace_stage st now k).1.active.lookup k2 = st.active.lookup k2) ∧
    (st.active.lookup k = none → (replace_stage st now k).1 = st) := by
  refine ⟨replace_nextId st now k, replace_tids st now k, ?_, ?_, replace_of_none st now k⟩
  · cases hl : st.active.lookup k with
    | none => rw [replace_of_none st now k hl]; exact hl
    | some a => exact (replace_cancels st now k a hl (hwf.2.1 k a hl).1).1
  · intro k2 hk2
    rcases replace_active_cases st now k with hc | hc
    · rw [hc]
    · rw [hc]
      exact lookup_eraseKey_ne _ _ _ hk2

/-- C1 (amended): when either time text fails to parse, `schedule_user`
notifies the error text as its final action and returns having registered
no timer and created no entry; the registry is fully unchanged when the
user had no prior entry, and entries of other users are never touched —
but a previously active schedule for this user id has already been
silently pruned/cancelled before parsing, so it does not survive the
failed call (contrary to the claim as stated). -/
theorem C1_parse_error (st : SchedState) (now : Nat) (cid : Int) (u p s e : String)
    (m : Bool) (hwf : WF st)
    (hbad : parse_time_h12 s = none ∨ parse_time_h12 e = none) :
    (schedule_user st now cid u p s e m).1.nextId = st.nextId ∧
    (schedule_user st now cid u p s e m).1.timers.map TimerRec.tid =
      st.timers.map TimerRec.tid ∧
    (schedule_user st now cid u p s e m).1.active.lookup (toString cid) = none ∧
    (∀ k, k ≠ toString cid →
       (schedule_user st now cid u p s e m).1.active.lookup k = st.active.lookup k) ∧
    (st.active.lookup (toString cid) = none → (schedule_user st now cid u p s e m).1 = st) ∧
    ((schedule_user st now cid u p s e m).2.getLast? =
       some (Ev.notify (toString cid) (invalidTimeText s)) ∨
     (schedule_user st now cid u p s e m).2.getLast? =
       some (Ev.notify (toString cid) (invalidTimeText e))) := by
  obtain ⟨hn, ht, hlk, hok, hnone⟩ := replace_stage_frozen st now (toString cid) hwf
  have hfail : ∀ txt,
      schedule_user st now cid u p s e m =
        ((replace_stage st now (toString cid)).1,
         (replace_stage st now (toString cid)).2 ++
           [Ev.notify (toString cid) (invalidTimeText txt)]) →
      (schedule_user st now cid u p s e m).1.nextId = st.nextId ∧
      (schedule_user st now cid u p s e m).1.timers.map TimerRec.tid =
        st.timers.map TimerRec.tid ∧
      (schedule_user st now cid u p s e m).1.active.lookup (toString cid) = none ∧
      (∀ k, k ≠ toString cid →
         (schedule_user st now cid u p s e m).1.active.lookup k = st.active.lookup k) ∧
      (st.active.lookup (toString cid) = none →
         (schedule_user st now cid u p s e m).1 = st) ∧
      (schedule_user st now cid u p s e m).2.getLast? =
        some (Ev.notify (toString cid) (invalidTimeText txt)) := by
    intro txt heq
    rw [heq]
    exact ⟨hn, ht, hlk, hok, hnone, List.getLast?_concat _⟩
  rcases hbad with hps | hpe
  · obtain ⟨c1, c2, c3, c4, c5, c6⟩ :=
      hfail s (schedule_user_parse_fail_start st now cid u p s e m hps)
    exact ⟨c1, c2, c3, c4, c5, Or.inl c6⟩
  · cases hps : parse_time_h12 s with
    | none =>
      obtain ⟨c1, c2, c3, c4, c5, c6⟩ :=
        hfail s (schedule_user_parse_fail_start st now cid u p s e m hps)
      exact ⟨c1, c2, c3, c4, c5, Or.inl c6⟩
    | some s_t =>
      obtain ⟨c1, c2, c3, c4, c5, c6⟩ :=
        hfail e (schedule_user_parse_fail_end st now cid u p s e m s_t hps hpe)
      exact ⟨c1, c2, c3, c4, c5, Or.inr c6⟩

/-- Witness for C1: a parse-error call on a fresh engine leaves the state
untouched. -/
theorem C1_witness :
    (schedule_user emptyState 0 42 "u" "p" "nope" "6AM" false).1 = emptyState :=
  (C1_parse_error emptyState 0 42 "u" "p" "nope" "6AM" false WF_emptyState
    (Or.inl (by decide))).2.2.2.2.1 rfl

/-- Counterexample to C1 as stated: with a previously active schedule for
user 42 and an unparsable start text, the call removes the prior entry
and cancels its timer, so the registry does not equal its pre-call value. -/
theorem C1_counterexample :
    exampleLive.active.lookup "42" =
      some ⟨"42", "u", "p", "09:00 AM", "01:00 PM", day0 + 13 * 3600, [0]⟩ ∧
    (schedule_user exampleLive (day0 + 10 * 3600) 42 "u" "p" "nope" "6AM"
        false).1.active.lookup "42" = none ∧
    (schedule_user exampleLive (day0 + 10 * 3600) 42 "u" "p" "nope" "6AM"
        false).1.timers =
      [⟨0, JobSpec.runOnce (day0 + 9 * 3600) (Callback.markStart "42" "u") "start_42",
        true⟩] := by
  exact ⟨by decide, by decide, by decide⟩

/-- C2 (amended): for a non-restore call whose computed end instant is
strictly before `now`, the engine notifies that the window already ended
and returns with no registry entry for the user; the start and end
markers are not registered, but the 30-minute repeating timer has already
been registered (with its last-firing bound in the past) and is left
uncancelled — so, contrary to the claim as stated, one timer is
registered on this path.  (At `endInstant = now` the schedule is created
normally rather than rejected.)  Whenever a Schedule call does store an
entry, every job handle of that entry refers to a live (uncancelled)
registered timer. -/
theorem C2_already_ended (st : SchedState) (now : Nat) (cid : Int) (u p s e : String)
    (s_t e_t : Tod)
    (hps : parse_time_h12 s = some s_t) (hpe : parse_time_h12 e = some e_t)
    (hend : (computeWindow now s_t e_t false).2 < now) :
    ((schedule_user st now cid u p s e false).1.active.lookup (toString cid) = none ∧
     Ev.notify (toString cid)
        ("ℹ️ The schedule window " ++ fmtIMp (computeWindow now s_t e_t false).1 ++ "–" ++
         fmtIMp (computeWindow now s_t e_t false).2 ++ " has already ended.") ∈
       (schedule_user st now cid u p s e false).2 ∧
     (schedule_user st now cid u p s e false).1.nextId = st.nextId + 1 ∧
     (schedule_user st now cid u p s e false).1.timers.map TimerRec.tid =
       st.timers.map TimerRec.tid ++ [st.nextId] ∧
     (∃ t ∈ (schedule_user st now cid u p s e false).1.timers,
        t.tid = st.nextId ∧ t.cancelled = false ∧
        t.spec = JobSpec.runRepeating 1800 (computeWindow now s_t e_t false).1
          (computeWindow now s_t e_t false).2 (Callback.doCheckin (toString cid) u p)
          ("repeat_" ++ toString cid))) ∧
    (∀ (st2 : SchedState) (now2 : Nat) (cid2 : Int) (u2 p2 s2 e2 : String) (m2 : Bool)
       (a : ActiveSet),
       (schedule_user st2 now2 cid2 u2 p2 s2 e2 m2).1.active.lookup (toString cid2) = some a →
       ∀ j ∈ a.jobs, ∃ t ∈ (schedule_user st2 now2 cid2 u2 p2 s2 e2 m2).1.timers,
         t.tid = j ∧ t.cancelled = false) := by
  constructor
  · have hvs := parse_time_h12_valid s s_t hps
    have hve := parse_time_h12_valid e e_t hpe
    have hlt := computeWindow_lt now s_t e_t false hvs hve
    have hs' : ¬ (computeWindow now s_t e_t false).1 ≥ now := by omega
    have he' : ¬ (computeWindow now s_t e_t false).2 ≥ now := by omega
    rw [schedule_user_parse_ok st now cid u p s e false s_t e_t hps hpe]
    rw [core_ff (replace_stage st now (toString cid)).1 now (toString cid) u p
      (computeWindow now s_t e_t false).1 (computeWindow now s_t e_t false).2 hs' he']
    refine ⟨lookup_eraseKey_self _ _, ?_, ?_, ?_, ?_⟩
    · exact List.mem_append.2 (Or.inr (by simp))
    · show (replace_stage st now (toString cid)).1.nextId + 1 = st.nextId + 1
      rw [replace_nextId]
    · show ((replace_stage st now (toString cid)).1.timers ++
        [TimerRec.mk (replace_stage st now (toString cid)).1.nextId
          (JobSpec.runRepeating 1800 (computeWindow now s_t e_t false).1
            (computeWindow now s_t e_t false).2
            (Callback.doCheckin (toString cid) u p)
            ("repeat_" ++ toString cid)) false]).map TimerRec.tid =
        st.timers.map TimerRec.tid ++ [st.nextId]
      rw [List.map_append, replace_tids, replace_nextId]
      rfl
    · exact ⟨⟨(replace_stage st now (toString cid)).1.nextId,
        JobSpec.runRepeating 1800 (computeWindow now s_t e_t false).1
          (computeWindow now s_t e_t false).2
          (Callback.doCheckin (toString cid) u p)
          ("repeat_" ++ toString cid), false⟩,
        List.mem_append.2 (Or.inr (by simp)),
        replace_nextId st now (toString cid), rfl, rfl⟩
  · intro st2 now2 cid2 u2 p2 s2 e2 m2 a ha j hj
    rcases schedule_user_cases st2 now2 cid2 u2 p2 s2 e2 m2 with h | ⟨s2t, e2t, _, _, h⟩
    · rw [h] at ha
      have := (replace_lookup_some st2 now2 (toString cid2) a ha).2
      rw [this] at hj
      cases hj
    · rw [h] at ha
      rcases core_stored_or_dropped (replace_stage st2 now2 (toString cid2)).1 now2
          (toString cid2) u2 p2 (computeWindow now2 s2t e2t m2).1
          (computeWindow now2 s2t e2t m2).2 with ⟨aset, hc, _, _, hlive⟩ | hc
      · rw [hc, lookup_cons_self] at ha
        have heq : aset = a := Option.some.inj ha
        subst heq
        obtain ⟨t, htm, htid, htc⟩ := hlive j hj
        rw [h]
        exact ⟨t, htm, htid, htc⟩
      · rw [hc, lookup_eraseKey_self] at ha
        cases ha

/-- Witness for C2: scheduling 9:00AM-1:00PM at 2:00PM leaves no entry
and allocates exactly one new timer handle. -/
theorem C2_witness :
    (schedule_user emptyState (day0 + 14 * 3600) 42 "u" "p" "9:00AM" "1:00PM"
        false).1.active.lookup "42" = none ∧
    (schedule_user emptyState (day0 + 14 * 3600) 42 "u" "p" "9:00AM" "1:00PM"
        false).1.nextId = emptyState.nextId + 1 :=
  ⟨((C2_already_ended emptyState (day0 + 14 * 3600) 42 "u" "p" "9:00AM" "1:00PM"
      ⟨9, 0⟩ ⟨13, 0⟩ (by decide) (by decide) (by decide)).1).1,
   ((C2_already_ended emptyState (day0 + 14 * 3600) 42 "u" "p" "9:00AM" "1:00PM"
      ⟨9, 0⟩ ⟨13, 0⟩ (by decide) (by decide) (by decide)).1).2.2.1⟩

/-- Counterexample to C2 as stated: on the already-ended path the call
has registered a repeating timer that is never cancelled, so it does not
return with no timers registered. -/
theorem C2_counterexample :
    (schedule_user emptyState (day0 + 14 * 3600) 42 "u" "p" "9:00AM" "1:00PM"
        false).1.active = [] ∧
    (schedule_user emptyState (day0 + 14 * 3600) 42 "u" "p" "9:00AM" "1:00PM"
        false).1.timers =
      [⟨0, JobSpec.runRepeating 1800 (day0 + 9 * 3600) (day0 + 13 * 3600)
          (Callback.doCheckin "42" "u" "p") "repeat_42", false⟩] ∧
    Ev.notify "42" "ℹ️ The schedule window 09:00 AM–01:00 PM has already ended." ∈
      (schedule_user emptyState (day0 + 14 * 3600) 42 "u" "p" "9:00AM" "1:00PM" false).2 := by
  exact ⟨by decide, by decide, by decide⟩

/-- C3: on every well-formed state at most one registry entry exists per
user id after a Schedule call, and when two consecutive Schedule calls
for the same id both succeed (each leaves an entry), exactly one entry
remains and every timer handle of the first call's entry has been
cancelled — the first set of timers is silently cancelled when the second
call replaces it. -/
theorem C3_replacement (st : SchedState) (hwf : WF st) (now1 now2 : Nat) (cid : Int)
    (u1 p1 s1 e1 u2 p2 s2 e2 : String) (m1 m2 : Bool) (a1 a2 : ActiveSet)
    (h1 : (schedule_user st now1 cid u1 p1 s1 e1 m1).1.active.lookup (toString cid) = some a1)
    (h2 : (schedule_user (schedule_user st now1 cid u1 p1 s1 e1 m1).1 now2 cid
            u2 p2 s2 e2 m2).1.active.lookup (toString cid) = some a2) :
    countKey (schedule_user (schedule_user st now1 cid u1 p1 s1 e1 m1).1 now2 cid
        u2 p2 s2 e2 m2).1.active (toString cid) = 1 ∧
    (∀ k, countKey (schedule_user (schedule_user st now1 cid u1 p1 s1 e1 m1).1 now2 cid
        u2 p2 s2 e2 m2).1.active k ≤ 1) ∧
    (∀ j ∈ a1.jobs, timerCancelled (schedule_user (schedule_user st now1 cid u1 p1 s1 e1
        m1).1 now2 cid u2 p2 s2 e2 m2).1 j) := by
  have hwfA := schedule_user_WF st now1 cid u1 p1 s1 e1 m1 hwf
  have hwfB := schedule_user_WF _ now2 cid u2 p2 s2 e2 m2 hwfA
  refine ⟨?_, hwfB.1, ?_⟩
  · have hle := hwfB.1 (toString cid)
    have hge := lookup_some_countKey_pos _ _ _ h2
    omega
  · intro j hj
    exact schedule_user_cancels_prior _ now2 cid u2 p2 s2 e2 m2 hwfA a1 h1 j hj

/-- Witness for C3: two concrete back-to-back Schedule calls for chat 42
leave one entry, and the first call's handle 1 is cancelled. -/
theorem C3_witness :
    countKey (schedule_user (schedule_user emptyState (day0 + 8 * 3600) 42 "u" "p"
        "9:00AM" "1:00PM" false).1 (day0 + 8 * 3600 + 60) 42 "u2" "p2"
        "10:00AM" "2:00PM" false).1.active "42" = 1 ∧
    timerCancelled (schedule_user (schedule_user emptyState (day0 + 8 * 3600) 42 "u" "p"
        "9:00AM" "1:00PM" false).1 (day0 + 8 * 3600 + 60) 42 "u2" "p2"
        "10:00AM" "2:00PM" false).1 1 := by
  have h := C3_replacement emptyState WF_emptyState (day0 + 8 * 3600)
    (day0 + 8 * 3600 + 60) 42 "u" "p" "9:00AM" "1:00PM" "u2" "p2" "10:00AM" "2:00PM"
    false false
    ⟨"42", "u", "p", "09:00 AM", "01:00 PM", day0 + 13 * 3600, [0, 1, 2]⟩
    ⟨"42", "u2", "p2", "10:00 AM", "02:00 PM", day0 + 14 * 3600, [3, 4, 5]⟩
    (by decide) (by decide)
  exact ⟨h.1, h.2.2 1 (by decide)⟩

theorem restore_count (now : Nat) :
    ∀ (users : List (String × RestoreRec)) (st : SchedState),
      (restore_from_dict st now users).2.1 = (users.filter restoreEligible).length := by
  intro users
  induction users with
  | nil => intro st; rfl
  | cons eu rest ih =>
    intro st
    obtain ⟨cid_str, u⟩ := eu
    rw [restore_from_dict]
    cases hp : pyInt cid_str with
    | none =>
      have helig : restoreEligible (cid_str, u) = false := by
        simp [restoreEligible, hp]
      rw [List.filter_cons]
      rw [helig]
      simpa using ih st
    | some cid_int =>
      by_cases hf : (u.lookup "username").isSome ∧ (u.lookup "password").isSome ∧
                    (u.lookup "start_time").isSome ∧ (u.lookup "end_time").isSome
      · have helig : restoreEligible (cid_str, u) = true := by
          simp [restoreEligible, hp, hf.1, hf.2.1, hf.2.2.1, hf.2.2.2]
        rw [List.filter_cons]
        rw [helig]
        simp only [if_pos hf, List.length_cons, if_true]
        rw [ih]
      · have helig : restoreEligible (cid_str, u) = false := by
          apply Bool.eq_false_iff.mpr
          intro hcontra
          apply hf
          simpa [restoreEligible, hp, Bool.and_eq_true] using hcontra
        rw [List.filter_cons]
        rw [helig]
        simp only [if_neg hf, if_false]
        exact ih st

/-- C6 (amended): restoration skips records whose textual key fails to
parse as an integer (logging a diagnostic, not aborting the batch), skips
records missing any of the four required fields without error, schedules
each remaining record with restore mode, and returns the count of those
remaining records — a record whose Schedule attempt itself fails (e.g.
unparsable time text) is still counted, so the count can exceed the
number of schedules actually registered.  The numeric/non-numeric example
returns 1, logs the skip, and registers only user id 123. -/
theorem C6_restore_semantics :
    (∀ (st : SchedState) (now : Nat) (users : List (String × RestoreRec)),
       (restore_from_dict st now users).2.1 = (users.filter restoreEligible).length) ∧
    (restore_from_dict emptyState (day0 + 8 * 3600)
       [("123", exampleRec), ("not-a-number", exampleRec)]).2.1 = 1 ∧
    (restore_from_dict emptyState (day0 + 8 * 3600)
       [("123", exampleRec), ("not-a-number", exampleRec)]).1.active.map Prod.fst = ["123"] ∧
    Ev.logLine "[Restore Error] Invalid chat_id: not-a-number" ∈
      (restore_from_dict emptyState (day0 + 8 * 3600)
        [("123", exampleRec), ("not-a-number", exampleRec)]).2.2 := by
  exact ⟨fun st now users => restore_count now users st, by decide, by decide, by decide⟩

/-- Counterexample to C6 as stated: one complete record under a numeric
key but with unparsable time texts makes the call return 1 while no
schedule at all is restored (registry and timer table stay empty), so the
return value is not the count of successfully restored schedules. -/
theorem C6_counterexample :
    (restore_from_dict emptyState (day0 + 8 * 3600) [("5", exampleBadRec)]).2.1 = 1 ∧
    (restore_from_dict emptyState (day0 + 8 * 3600) [("5", exampleBadRec)]).1.active = [] ∧
    (restore_from_dict emptyState (day0 + 8 * 3600) [("5", exampleBadRec)]).1.timers = [] := by
  exact ⟨by decide, by decide, by decide⟩

/-- C9: in the 2024-03-01 08:00 scenario, scheduling 9:00AM-1:00PM
registers the start marker at 09:00, a repeating check-in with 30-minute
interval from 09:00 to 13:00 (whose firing instants are exactly the nine
times 09:00, 09:30, ..., 13:00), and the end marker at 13:00:01 whose
callback removes the registry entry; in general a repeating timer's
firings start at its first instant, recur every interval, and never pass
its last instant. -/
theorem C9_scenario :
    (schedule_user emptyState (day0 + 8 * 3600) 42 "u" "p" "9:00AM" "1:00PM"
        false).1.timers =
      [⟨0, JobSpec.runOnce (day0 + 9 * 3600) (Callback.markStart "42" "u") "start_42", false⟩,
       ⟨1, JobSpec.runRepeating 1800 (day0 + 9 * 3600) (day0 + 13 * 3600)
          (Callback.doCheckin "42" "u" "p") "repeat_42", false⟩,
       ⟨2, JobSpec.runOnce (day0 + 13 * 3600 + 1)
          (Callback.markEnd "42" "09:00 AM" "01:00 PM") "end_42", false⟩] ∧
    firingTimes 1800 (day0 + 9 * 3600) (day0 + 13 * 3600) =
      [day0 + 32400, day0 + 34200, day0 + 36000, day0 + 37800, day0 + 39600,
       day0 + 41400, day0 + 43200, day0 + 45000, day0 + 46800] ∧
    (firingTimes 1800 (day0 + 9 * 3600) (day0 + 13 * 3600)).length = 9 ∧
    (run_callback (schedule_user emptyState (day0 + 8 * 3600) 42 "u" "p" "9:00AM"
        "1:00PM" false).1
      (Callback.markEnd "42" "09:00 AM" "01:00 PM")).1.active.lookup "42" = none ∧
    (∀ interval first last : Nat, interval ≠ 0 →
       ∀ x ∈ firingTimes interval first last,
         first ≤ x ∧ x ≤ last ∧ (x - first) % interval = 0) ∧
    (∀ interval first last : Nat, interval ≠ 0 → first ≤ last →
       first ∈ firingTimes interval first last) := by
  refine ⟨by decide, by decide, by decide, by decide, ?_, ?_⟩
  · intro i f l hi x hx
    unfold firingTimes at hx
    split at hx
    · cases hx
    · rename_i hcond
      have hlf : f ≤ l := by omega
      obtain ⟨k, hk, rfl⟩ := List.mem_map.1 hx
      rw [List.mem_range] at hk
      have hk' : k ≤ (l - f) / i := by omega
      have h1 : i * k ≤ i * ((l - f) / i) := Nat.mul_le_mul_left i hk'
      have h2 : i * ((l - f) / i) ≤ l - f := by
        rw [Nat.mul_comm]
        exact Nat.div_mul_le_self _ _
      refine ⟨Nat.le_add_right _ _, by omega, ?_⟩
      simp [Nat.add_sub_cancel_left, Nat.mul_mod_right]
  · intro i f l hi hfl
    unfold firingTimes
    rw [if_neg (by omega)]
    exact List.mem_map.2 ⟨0, by simp, by simp⟩

/-- Witness for C9: the first firing instant 09:00 belongs to the
repeating timer's firing list. -/
theorem C9_witness :
    (day0 + 9 * 3600) ∈ firingTimes 1800 (day0 + 9 * 3600) (day0 + 13 * 3600) :=
  C9_scenario.2.2.2.2.2 1800 (day0 + 9 * 3600) (day0 + 13 * 3600)
    (by decide) (by decide)

end Mycheckin
